import Mathlib

/-!
Verification of the buffered file-I/O stream (src/file.h, src/file.cc).

The embedding models the class `File` as a state record together with an
explicit OS layer `Sys` (file bytes, descriptor offset, and injection
schedules for the results of `read(2)` and `write(2)`).  Machine integers
are modeled as follows:

* `size_t` fields and results are `Nat`; conversions of signed syscall
  results into `size_t` use `intToSizeT` (so `read` returning -1 stores
  `2^64 - 1`), and `return eof;` from a size_t-returning function yields
  `eofSizeT = 2^64 - 1`.  Comparisons written `x < 0` on a `size_t` value
  are kept as written; on `Nat` they are decidably false, exactly as the
  unsigned comparison is constant-false in the source.
* `int`/`off_t`/`ssize_t` values are `Int`.  Additions and
  multiplications of small size_t quantities are plain `Nat` arithmetic
  (wraparound at 2^64 in products such as `size * nmemb` is not modeled;
  theorems that quantify over sizes bound them below 2^64).
* The malloc'd buffer is a total map `Nat → Nat`; cells never written
  hold 0 (a fixed stand-in for indeterminate memory).
-/

set_option maxRecDepth 4000

namespace BufferedIO

/-- Buffer capacity: `static const int bufsiz = 8192` (file.h). -/
def bufsiz : Nat := 8192

/-- The EOF sentinel: `static const int eof = -1` (file.h). -/
def eofInt : Int := -1

/-- The EOF sentinel as it comes out of a function returning `size_t`
(`return eof;` in `File::fread` / `File::fwrite`): `(size_t)(-1)`. -/
def eofSizeT : Nat := 2 ^ 64 - 1

/-- Conversion of a signed value (ssize_t result of `read`/`write`) into a
`size_t` variable, as in `size_t bytes_read = read(...)`. -/
def intToSizeT (i : Int) : Nat := (i % (2 ^ 64 : Int)).toNat

/-- size_t subtraction `a - b` (wrapping modulo 2^64). -/
def sizeTSub (a b : Nat) : Nat := (a + (2 ^ 64 - b % 2 ^ 64)) % 2 ^ 64

/-- Reinterpretation of a size_t bit pattern as a signed 64-bit `off_t`, as
happens when a size_t expression is passed for `lseek`'s off_t parameter
(`lseek(fd, bufAt - bufEnd, SEEK_CUR)` in `File::fflush`). -/
def toOffT (n : Nat) : Int :=
  if n % 2 ^ 64 < 2 ^ 63 then ((n % 2 ^ 64 : Nat) : Int)
  else ((n % 2 ^ 64 : Nat) : Int) - 2 ^ 64

/-- Widening of a stored byte to `int` through the (signed) `char` it was
read into, as in `return (int)(*temp);` of `File::fgetc`. -/
def byteToInt (b : Nat) : Int :=
  if b % 256 < 128 then ((b % 256 : Nat) : Int)
  else ((b % 256 : Nat) : Int) - 256

/-- Truncation of an `int` to the byte stored in memory, as in `(char)c`. -/
def intToByte (c : Int) : Nat := (c % (256 : Int)).toNat

/-- Implementation-defined `size_t` to `int` conversion (truncation to 32
bits, two's complement), as in `return this->fwrite(...)` of `File::fputs`. -/
def sizeTToInt (n : Nat) : Int :=
  if n % 2 ^ 32 < 2 ^ 31 then ((n % 2 ^ 32 : Nat) : Int)
  else ((n % 2 ^ 32 : Nat) : Int) - 2 ^ 32

/-- Result of one planned `write(2)` call: full success, failure (-1), or a
short write of only the first `k` bytes (legal under POSIX). -/
inductive WriteRes where
  | ok : WriteRes
  | err : WriteRes
  | short (k : Nat) : WriteRes
deriving DecidableEq

/-- The OS layer beneath the single descriptor: the file's bytes, the
descriptor's seek offset, and injection schedules giving the outcome of
each successive `read(2)` / `write(2)` call (head is consumed first; an
empty schedule means the call succeeds). -/
structure Sys where
  data : List Nat
  pos : Nat
  readPlan : List Bool
  writePlan : List WriteRes
deriving DecidableEq

/-- `read(fd, dst, count)`: result, bytes delivered, new OS state.  On
success it delivers up to `count` bytes from the offset and advances the
offset; at or past end of file it delivers 0 bytes; on a planned failure
it returns -1 and moves nothing. -/
def sysRead (sys : Sys) (count : Nat) : Int × List Nat × Sys :=
  let ok := sys.readPlan.headD true
  let sys1 : Sys := { sys with readPlan := sys.readPlan.tail }
  if ok then
    let bytes := (sys1.data.drop sys1.pos).take count
    ((bytes.length : Int), bytes, { sys1 with pos := sys1.pos + bytes.length })
  else ((-1 : Int), [], sys1)

/-- Overwrite the file's bytes at the current offset (zero padding if the
offset is past the end), advancing the offset. -/
def sysWriteAt (sys : Sys) (bytes : List Nat) : Sys :=
  let d := sys.data
  let pad := List.replicate (sys.pos - d.length) 0
  { sys with
      data := d.take sys.pos ++ pad ++ bytes ++ d.drop (sys.pos + bytes.length),
      pos := sys.pos + bytes.length }

/-- `write(fd, src, count)`: result and new OS state. -/
def sysWrite (sys : Sys) (bytes : List Nat) : Int × Sys :=
  let plan := sys.writePlan.headD .ok
  let sys1 : Sys := { sys with writePlan := sys.writePlan.tail }
  match plan with
  | .err => ((-1 : Int), sys1)
  | .ok => ((bytes.length : Int), sysWriteAt sys1 bytes)
  | .short k =>
      let b := bytes.take k
      ((b.length : Int), sysWriteAt sys1 b)

/-- `enum Whence` (file.h): seek_set, seek_cur, seek_end. -/
inductive Whence where
  | seek_set : Whence
  | seek_cur : Whence
  | seek_end : Whence
deriving DecidableEq

/-- `lseek(fd, offset, whence)`: returns the resulting offset, or -1 when
the target would be negative.  The offset may point past end of file. -/
def sysLseek (sys : Sys) (offset : Int) (whence : Whence) : Int × Sys :=
  let base : Int :=
    match whence with
    | .seek_set => 0
    | .seek_cur => (sys.pos : Int)
    | .seek_end => (sys.data.length : Int)
  let t := base + offset
  if t < 0 then ((-1 : Int), sys) else (t, { sys with pos := t.toNat })

/-- The Stream state (private members of `class File`, file.h 89-97).
`fend` is the member `end` (a Lean keyword); `bmode` is omitted (it is
always FULL_BUFFER and never consulted); the descriptor lives in `Sys`. -/
structure File where
  buf : Nat → Nat
  bufAt : Nat
  bufEnd : Nat
  fmode : Char
  lastAct : Char
  err : Int
  fend : Bool

/-- A freshly constructed stream with mode character `m`: the in-class
initializers of file.h give `bufAt = 0`, `bufEnd = 0`, `lastAct = '0'`,
`err = 0`, `end = false`; the malloc'd buffer is modeled as all zeros. -/
def mkFile (m : Char) : File :=
  { buf := fun _ => 0, bufAt := 0, bufEnd := 0, fmode := m,
    lastAct := '0', err := 0, fend := false }

/-- `File::File(name, mode)` (file.cc 24-38): maps the mode string to the
stored mode character `'r'`, `'w'` or `'+'`; any other mode string leaves
`fmode` (and the descriptor) uninitialized — undefined behavior, modeled
as `none`.  Descriptor acquisition and its failure path are not modeled. -/
def fopen (mode : List Char) : Option File :=
  match mode with
  | ['r'] => some (mkFile 'r')
  | ['w'] => some (mkFile 'w')
  | 'r' :: '+' :: _ => some (mkFile '+')
  | 'w' :: '+' :: _ => some (mkFile '+')
  | _ => none

/-- `File::fflush` (file.cc 70-85).  With `lastAct = 'w'` it writes out the
first `bufAt` buffer bytes (checking only for a negative result); with
`lastAct = 'r'` it rewinds the descriptor by the relative seek
`bufAt - bufEnd` (size_t arithmetic reinterpreted as off_t), recording
`err = -4` on failure.  Only on the non-failing paths does it reset
`bufAt = 0`, `bufEnd = 0`, `lastAct = '0'`. -/
def fflush (s : File) (sys : Sys) : Int × File × Sys :=
  if s.lastAct = 'w' then
    let w := sysWrite sys (List.map s.buf (List.range s.bufAt))
    if w.1 < 0 then (eofInt, s, w.2)
    else ((0 : Int), { s with bufAt := 0, bufEnd := 0, lastAct := '0' }, w.2)
  else if s.lastAct = 'r' then
    let k := sysLseek sys (toOffT (sizeTSub s.bufAt s.bufEnd)) .seek_cur
    if k.1 = -1 then (eofInt, { s with err := -4 }, k.2)
    else ((0 : Int), { s with bufAt := 0, bufEnd := 0, lastAct := '0' }, k.2)
  else ((0 : Int), { s with bufAt := 0, bufEnd := 0, lastAct := '0' }, sys)

/-- Delivery of freshly read bytes into the start of the buffer (the
`read(this->fd, this->buf, bufsiz)` refill of `File::fread`). -/
def refill (buf : Nat → Nat) (bytes : List Nat) : Nat → Nat :=
  fun j => if j < bytes.length then bytes.getD j 0 else buf j

/-- The byte-copy loop of `File::fread` (file.cc 132-138): while the
request is unsatisfied, stop — setting `end` — when the buffer is
exhausted below capacity (`bufAt == bufEnd && bufEnd < bufsiz`), else
deliver `buf[bufAt++]`.  `fuel` is the number of bytes still requested.
Returns (bytes delivered, final `bufAt`, whether `end` was set). -/
def copyLoop (buf : Nat → Nat) (bufEnd : Nat) : Nat → Nat → List Nat × Nat × Bool
  | 0, bufAt => ([], bufAt, false)
  | fuel + 1, bufAt =>
      if bufAt = bufEnd ∧ bufEnd < bufsiz then ([], bufAt, true)
      else
        let r := copyLoop buf bufEnd fuel (bufAt + 1)
        (buf bufAt :: r.1, r.2)

/-- Common tail of `File::fread` (file.cc 130-139): set `lastAct = 'r'`
and run the byte-copy loop; the returned count is the final `ptrAt`. -/
def freadTail (s : File) (sys : Sys) (drained : List Nat) (total : Nat) :
    Nat × List Nat × File × Sys :=
  let s1 : File := { s with lastAct := 'r' }
  let c := copyLoop s1.buf s1.bufEnd (total - drained.length) s1.bufAt
  (drained.length + c.1.length, drained ++ c.1,
   { s1 with bufAt := c.2.1, fend := s1.fend || c.2.2 }, sys)

/-- Lines 107-139 of `File::fread`: with no active buffer content
(`lastAct == '0'`) either read directly into the destination when the
outstanding request exceeds the capacity (file.cc 109-117; the count
passed to `read` is `nmemb * size`, not reduced by what was already
drained) or refill the buffer once (file.cc 119-127); then fall through
to the byte-copy tail. -/
def freadFill (s : File) (sys : Sys) (drained : List Nat) (size nmemb : Nat) :
    Nat × List Nat × File × Sys :=
  let ptrAt := drained.length
  if s.lastAct = '0' then
    if size * nmemb - ptrAt > bufsiz then
      let r := sysRead sys (nmemb * size)
      let bytes_read := intToSizeT r.1
      if bytes_read < 0 then (eofSizeT, drained, { s with err := -3 }, r.2.2) else
      let s3 := if bytes_read < size * nmemb - ptrAt then { s with fend := true } else s
      ((bytes_read + ptrAt) % 2 ^ 64, drained ++ r.2.1, s3, r.2.2)
    else
      let r := sysRead sys bufsiz
      let s3 : File := { s with buf := refill s.buf r.2.1, bufEnd := intToSizeT r.1 }
      if s3.bufEnd < 0 then (eofSizeT, drained, { s3 with err := -2 }, r.2.2) else
      if s3.bufEnd = 0 then (ptrAt, drained, { s3 with fend := true }, r.2.2)
      else freadTail s3 r.2.2 drained (size * nmemb)
  else freadTail s sys drained (size * nmemb)

/-- `File::fread` (file.cc 88-140).  The destination pointer is modeled by
returning the list of bytes stored through it, in order.  fread's return
type is `size_t`: `return eof;` yields `eofSizeT`, and the written checks
`bytes_read < 0` and `bufEnd < 0` compare a size_t against 0 and can
never hold (they are transcribed as written; on `Nat` they are likewise
decidably false). -/
def fread (s : File) (sys : Sys) (size nmemb : Nat) : Nat × List Nat × File × Sys :=
  if s.fmode = 'w' then (eofSizeT, [], s, sys) else
  let f1 := if s.lastAct = 'w' then fflush s sys else ((0 : Int), s, sys)
  if f1.1 ≠ 0 then (eofSizeT, [], f1.2.1, f1.2.2) else
  let s1 := f1.2.1
  let sys1 := f1.2.2
  -- file.cc 96-106: if a prior read's leftover is smaller than the request,
  -- drain it into the destination, then fflush (rewinding the descriptor);
  -- on fflush failure undo the drain's bufAt advance and fail.
  let st2 :=
    if s1.lastAct = 'r' ∧ s1.bufAt + size * nmemb > s1.bufEnd then
      let d := List.map s1.buf (List.range' s1.bufAt (s1.bufEnd - s1.bufAt))
      let f2 := fflush { s1 with bufAt := s1.bufEnd } sys1
      if f2.1 ≠ 0 then
        (d, { f2.2.1 with bufAt := f2.2.1.bufAt - d.length }, f2.2.2, true)
      else (d, f2.2.1, f2.2.2, false)
    else ([], s1, sys1, false)
  if st2.2.2.2 then (eofSizeT, st2.1, st2.2.1, st2.2.2.1) else
  freadFill st2.2.1 st2.2.2.1 st2.1 size nmemb

/-- Bytes reachable through the source pointer of `File::fwrite`: `ptr[i]`
for `i < total`, reads past the supplied data modeled as 0. -/
def ptrBytes (ptr : List Nat) (total : Nat) : List Nat :=
  (List.range total).map (fun i => ptr.getD i 0)

/-- The byte-copy loop of `File::fwrite` (file.cc 163-165):
`buf[bufAt++] = ptr[bytes_written++]`. -/
def writeCopy (buf : Nat → Nat) (bufAt : Nat) : List Nat → (Nat → Nat) × Nat
  | [] => (buf, bufAt)
  | b :: rest => writeCopy (fun j => if j = bufAt then b else buf j) (bufAt + 1) rest

/-- `File::fwrite` (file.cc 143-168).  Return type `size_t` as in fread;
the check `bytes_written < 0` after the direct write is unsigned and can
never hold.  Note `lastAct = 'w'` is assigned before the capacity check,
so the fflush inside the capacity branch resets it back to `'0'`. -/
def fwrite (s : File) (sys : Sys) (ptr : List Nat) (size nmemb : Nat) :
    Nat × File × Sys :=
  if s.fmode = 'r' then (eofSizeT, s, sys) else
  let f1 := if s.lastAct = 'r' then fflush s sys else ((0 : Int), s, sys)
  if f1.1 ≠ 0 then (eofSizeT, f1.2.1, f1.2.2) else
  let s1 : File := { f1.2.1 with lastAct := 'w' }
  let sys1 := f1.2.2
  let total := size * nmemb
  if s1.bufAt + total > bufsiz then
    let f2 := fflush s1 sys1
    if f2.1 ≠ 0 then (eofSizeT, f2.2.1, f2.2.2) else
    let s2 := f2.2.1
    let sys2 := f2.2.2
    if total > bufsiz then
      let w := sysWrite sys2 (ptrBytes ptr total)
      let bytes_written := intToSizeT w.1
      if bytes_written < 0 then (eofSizeT, { s2 with err := -1 }, w.2) else
      if bytes_written = 0 then
        let bc := writeCopy s2.buf s2.bufAt (ptrBytes ptr total)
        (total, { s2 with buf := bc.1, bufAt := bc.2 }, w.2)
      else (bytes_written, s2, w.2)
    else
      let bc := writeCopy s2.buf s2.bufAt (ptrBytes ptr total)
      (total, { s2 with buf := bc.1, bufAt := bc.2 }, sys2)
  else
    let bc := writeCopy s1.buf s1.bufAt (ptrBytes ptr total)
    (total, { s1 with buf := bc.1, bufAt := bc.2 }, sys1)

/-- `File::fgetc` (file.cc 171-176): `char temp[1] = {0}` then an fread of
one byte.  fread returns `size_t`, so `fread(temp, 1, 1) < 0` can never
hold and the function always returns `(int)(*temp)` — the byte delivered,
sign-extended through `char`, or 0 when no byte was stored. -/
def fgetc (s : File) (sys : Sys) : Int × File × Sys :=
  let r := fread s sys 1 1
  let temp0 : Nat := r.2.1.headD 0
  if (r.1 : Nat) < 0 then (eofInt, r.2.2.1, r.2.2.2)
  else (byteToInt temp0, r.2.2.1, r.2.2.2)

/-- `File::fputc` (file.cc 179-184): an fwrite of the one byte `(char)c`.
fwrite returns `size_t`, so `fwrite(a, 1, 1) < 0` can never hold and the
function always returns `c`. -/
def fputc (s : File) (sys : Sys) (c : Int) : Int × File × Sys :=
  let w := fwrite s sys [intToByte c] 1 1
  if (w.1 : Nat) < 0 then (eofInt, w.2.1, w.2.2)
  else (c, w.2.1, w.2.2)

/-- Outcome of `File::fgets`: the returned pointer (`ret none` = NULL,
`ret (some l)` = the destination pointer with `l` the bytes stored into
it), or the thrown `"Reposition failure"` exception. -/
inductive FgetsRes where
  | ret : Option (List Nat) → FgetsRes
  | thrown : FgetsRes
deriving DecidableEq

/-- The character-gathering loop of `File::fgets` (file.cc 201-218), with
`fuel` the remaining iteration count of `for (int i = 0; i < size; i++)`.
Each round: `temp = fgetc()`; `overflow` is incremented whenever
`bufAt == bufEnd` afterwards; on `temp == eof` with `end` not set, the
buffer is emptied (`bufAt = bufEnd = 0`, `lastAct = '0'`) and the
descriptor rewound by `file_offset - bufEnd - overflow * bufsiz` (with
`bufEnd` read after the zeroing), throwing on lseek failure and returning
NULL otherwise; on `temp == eof` at end-of-file the loop breaks; else the
byte `(char)temp` is stored and a newline breaks the loop. -/
def fgetsLoop (file_offset : Nat) :
    Nat → File → Sys → Nat → List Nat → FgetsRes × File × Sys
  | 0, s, sys, _, acc => (.ret (some acc), s, sys)
  | fuel + 1, s, sys, overflow, acc =>
      let g := fgetc s sys
      let temp := g.1
      let s1 := g.2.1
      let sys1 := g.2.2
      let overflow1 := if s1.bufAt = s1.bufEnd then overflow + 1 else overflow
      if temp = eofInt then
        if ¬ s1.fend then
          let s2 : File := { s1 with bufAt := 0, bufEnd := 0, lastAct := '0' }
          let delta := toOffT (sizeTSub (sizeTSub file_offset s2.bufEnd)
                                        (overflow1 * bufsiz))
          let k := sysLseek sys1 delta .seek_cur
          if k.1 = -1 then (.thrown, s2, k.2)
          else (.ret none, s2, k.2)
        else (.ret (some acc), s1, sys1)
      else
        let acc1 := acc ++ [intToByte temp]
        if temp = 10 then (.ret (some acc1), s1, sys1)
        else fgetsLoop file_offset fuel s1 sys1 overflow1 acc1

/-- `File::fgets` (file.cc 187-220): refuse on a write-only stream, fflush
on a read-after-write switch (returning NULL on its failure), record
`file_offset = bufAt` and start `overflow` at 1 when the buffer is
currently empty (`bufAt == bufEnd`), then gather up to `size` characters.
A non-positive `size` makes the loop run zero times. -/
def fgets (s : File) (sys : Sys) (size : Int) : FgetsRes × File × Sys :=
  if s.fmode = 'w' then (.ret none, s, sys) else
  let f1 := if s.lastAct = 'w' then fflush s sys else ((0 : Int), s, sys)
  if f1.1 ≠ 0 then (.ret none, f1.2.1, f1.2.2) else
  let s1 := f1.2.1
  let file_offset := s1.bufAt
  let overflow := if s1.bufAt = s1.bufEnd then 1 else 0
  fgetsLoop file_offset (if size ≤ 0 then 0 else size.toNat) s1 f1.2.2 overflow []

/-- `File::fputs` (file.cc 223-229): refuse read-only streams with -1, else
fwrite the NUL-terminated sequence (modeled as a NUL-free byte list whose
length the `while (str[size] != 0) size++` scan computes); the size_t
result is converted to the `int` return type. -/
def fputs (s : File) (sys : Sys) (str : List Nat) : Int × File × Sys :=
  if s.fmode = 'r' then ((-1 : Int), s, sys) else
  let w := fwrite s sys str 1 str.length
  (sizeTToInt w.1, w.2.1, w.2.2)

/-- `File::fseek` (file.cc 232-242): fflush is called first and its result
is discarded; the whence enum always maps to a defined value, so the
`return -2` arm is unreachable; the descriptor seek is then issued
unconditionally, returning -1 on its failure and otherwise clearing `end`
and returning 0. -/
def fseek (s : File) (sys : Sys) (offset : Int) (whence : Whence) :
    Int × File × Sys :=
  let f1 := fflush s sys
  let s1 := f1.2.1
  let k := sysLseek f1.2.2 offset whence
  if k.1 = -1 then ((-1 : Int), s1, k.2)
  else ((0 : Int), { s1 with fend := false }, k.2)

/-- The digit loop of `itoa` (file.cc 260-262):
`for (; i > 0; i = i / 10) *--p = '0' + (i % 10);` — digits are prepended
to the accumulator, least significant first.  `fuel` only bounds the
iteration count so the recursion is structural; since `i / 10 < i` for
positive `i`, any `fuel ≥ i` gives the loop's exact behavior. -/
def itoaLoopF : Nat → Nat → List Nat → List Nat
  | _, 0, acc => acc
  | 0, _, acc => acc
  | fuel + 1, i, acc => itoaLoopF fuel (i / 10) ((48 + i % 10) :: acc)

/-- The digit loop of `itoa` entered at `i`, with sufficient fuel. -/
def itoaLoop (i : Nat) (acc : List Nat) : List Nat := itoaLoopF i i acc

/-- `itoa` (file.cc 249-267), as the byte sequence of the returned string:
`0` yields "0"; otherwise the digits of `|i|` with a leading `'-'` (45)
for negatives.  (For `i = INT_MIN` the source's `i = -i` overflows —
undefined behavior; the model negates exactly, and theorems about itoa
keep `i` strictly inside the 32-bit range.) -/
def itoa (i : Int) : List Nat :=
  if i = 0 then [48]
  else
    let digits := itoaLoop i.natAbs []
    if i < 0 then 45 :: digits else digits

/-- A `printf`-style argument: `%d` consumes an int, `%s` a NUL-free byte
sequence. -/
inductive FArg where
  | intArg : Int → FArg
  | strArg : List Nat → FArg
deriving DecidableEq

/-- Emission of a byte sequence one character at a time through fputc, as
in the `%s` and `%d` arms of `File::fprintf`; the Bool is true if some
fputc reported failure (`fputc(...) < 0`). -/
def emitBytes (s : File) (sys : Sys) (n : Nat) :
    List Nat → Bool × File × Sys × Nat
  | [] => (false, s, sys, n)
  | c :: rest =>
      let p := fputc s sys (byteToInt c)
      if p.1 < 0 then (true, p.2.1, p.2.2, n)
      else emitBytes p.2.1 p.2.2 (n + 1) rest

/-- The format-scanning loop of `File::fprintf` (file.cc 275-314).  A
non-`%` byte is copied through fputc; `%s` emits the next string argument;
`%d` emits `itoa` of the next int argument; any other byte after `%`
(including `%` itself) is emitted as-is.  A trailing lone `%` makes the
source read the NUL terminator in its switch (default arm emits it) and
then scan past the end of the string — undefined behavior, modeled as
emitting byte 0 and stopping.  A mismatched or exhausted argument list is
undefined behavior in the source (va_arg); the model substitutes 0 / the
empty sequence.  Returns -1 as soon as an fputc fails. -/
def fprintfLoop : List Nat → List FArg → File → Sys → Nat → Int × File × Sys
  | [], _, s, sys, n => ((n : Int), s, sys)
  | c :: rest, args, s, sys, n =>
      if c ≠ 37 then
        let p := fputc s sys (byteToInt c)
        if p.1 < 0 then ((-1 : Int), p.2.1, p.2.2)
        else fprintfLoop rest args p.2.1 p.2.2 (n + 1)
      else
        match rest with
        | [] =>
            let p := fputc s sys 0
            if p.1 < 0 then ((-1 : Int), p.2.1, p.2.2)
            else ((n + 1 : Nat), p.2.1, p.2.2)
        | d :: rest2 =>
            if d = 115 then
              let str := match args.headD (.strArg []) with
                         | .strArg l => l
                         | .intArg _ => []
              let e := emitBytes s sys n str
              if e.1 then ((-1 : Int), e.2.1, e.2.2.1)
              else fprintfLoop rest2 args.tail e.2.1 e.2.2.1 e.2.2.2
            else if d = 100 then
              let iv := match args.headD (.intArg 0) with
                        | .intArg i => i
                        | .strArg _ => 0
              let e := emitBytes s sys n (itoa iv)
              if e.1 then ((-1 : Int), e.2.1, e.2.2.1)
              else fprintfLoop rest2 args.tail e.2.1 e.2.2.1 e.2.2.2
            else
              let p := fputc s sys (byteToInt d)
              if p.1 < 0 then ((-1 : Int), p.2.1, p.2.2)
              else fprintfLoop rest2 args p.2.1 p.2.2 (n + 1)

/-- `File::fprintf` (file.cc 271-317): scan the format, returning the
number of characters emitted, or -1 if an underlying fputc failed. -/
def fprintf (s : File) (sys : Sys) (format : List Nat) (args : List FArg) :
    Int × File × Sys :=
  fprintfLoop format args s sys 0

/-- Specification-side definition (following the spec's words, for
comparison with `itoa`): the minimal base-10 digit string of a natural
number — most significant digit first, no leading zeros, `0` printed as
"0" — as ASCII bytes. -/
def decDigitsSpec (n : Nat) : List Nat :=
  if h : n < 10 then [48 + n]
  else decDigitsSpec (n / 10) ++ [48 + n % 10]
termination_by n
decreasing_by
  exact Nat.div_lt_self (by omega) (by decide)

/-- Specification-side definition: the minimal decimal representation of a
signed integer — a leading `'-'` (45) for negatives, base 10, no leading
zeros, 0 prints as "0" — as ASCII bytes. -/
def decimalReprSpec (i : Int) : List Nat :=
  if i < 0 then 45 :: decDigitsSpec i.natAbs else decDigitsSpec i.natAbs

/-- Shape of the bookkeeping after a read-path operation: either an active
read window inside the fetched prefix — the spec's
`0 ≤ cursor ≤ valid_len ≤ capacity` — or a clean buffer. -/
def ReadShape (s : File) : Prop :=
  (s.lastAct = 'r' ∧ s.bufAt ≤ s.bufEnd ∧ s.bufEnd ≤ bufsiz) ∨
  (s.lastAct = '0' ∧ s.bufAt = 0 ∧ s.bufEnd = 0)

/-- The buffer-bookkeeping invariant for one-directional streams: on a
ReadOnly stream the state has `ReadShape` (in particular
`0 ≤ cursor ≤ valid_len ≤ capacity`); on a WriteOnly stream `valid_len`
(bufEnd) stays 0 and the cursor stays within capacity (so
`cursor ≤ valid_len` fails as soon as a byte is buffered).  For other
modes the predicate imposes nothing. -/
def Inv (s : File) : Prop :=
  (s.fmode = 'r' → ReadShape s) ∧
  (s.fmode = 'w' →
      (s.lastAct = 'w' ∨ s.lastAct = '0') ∧ s.bufEnd = 0 ∧ s.bufAt ≤ bufsiz)

/-- Benign OS schedules: every planned `read(2)` succeeds, and no planned
`write(2)` is a zero-byte short write (`read` failures plant `2^64 - 1`
in `bufEnd` through the unsigned conversion, and a zero-byte short write
makes `fwrite`'s direct path fall into its buffering loop; both destroy
the bookkeeping bounds). -/
def sysOK (sys : Sys) : Prop :=
  (∀ b ∈ sys.readPlan, b = true) ∧ (∀ w ∈ sys.writePlan, w ≠ WriteRes.short 0)

/-! ### Theorems -/

/-- Claim C1 (code bug): when a hard read error hits an `fgets` scan
mid-way (file `[65]`, first refill succeeds, second `read` fails), the
error never reaches the rollback logic: `read`'s -1 lands in the size_t
`bufEnd` as `2^64 - 1`, the dead unsigned checks pass it through, and
`fgetc` keeps serving stale buffer bytes.  `fgets` returns its destination
filled with `[65, 65, 0]` — not NULL — no error is recorded, end-of-stream
was never observed, and the descriptor stays at offset 1 instead of being
rolled back to the pre-call offset 0. -/
theorem c1_fgets_read_error_no_rollback :
    (fgets (mkFile 'r') ⟨[65], 0, [true, false], []⟩ 3).1
        = FgetsRes.ret (some [65, 65, 0]) ∧
    (fgets (mkFile 'r') ⟨[65], 0, [true, false], []⟩ 3).1 ≠ FgetsRes.ret none ∧
    (fgets (mkFile 'r') ⟨[65], 0, [true, false], []⟩ 3).2.2.pos = 1 ∧
    (fgets (mkFile 'r') ⟨[65], 0, [true, false], []⟩ 3).2.1.err = 0 ∧
    (fgets (mkFile 'r') ⟨[65], 0, [true, false], []⟩ 3).2.1.fend = false := by
  refine ⟨by decide, by decide, by decide, by decide, by decide⟩

/-- Claim C2 (code bug): `fgetc` does not map the EOF sentinel through.
On an empty file the stream reaches end-of-stream (`fend` set), `fread`
returns 0 bytes, the unsigned guard `fread(temp,1,1) < 0` cannot fire,
and `fgetc` returns the untouched NUL temp byte, 0 — not the sentinel -1.
With a hard read error injected it likewise returns 0 (a stale buffer
byte) rather than -1. -/
theorem c2_fgetc_eof_not_mapped :
    (fgetc (mkFile 'r') ⟨[], 0, [], []⟩).1 = 0 ∧
    (fgetc (mkFile 'r') ⟨[], 0, [], []⟩).2.1.fend = true ∧
    (fgetc (mkFile 'r') ⟨[], 0, [false], []⟩).1 = 0 ∧
    (0 : Int) ≠ eofInt := by
  refine ⟨by decide, by decide, by decide, by decide⟩

/-- Claim C3 (code bug): an `fwrite` that triggers the capacity sync does
not leave `last_action = Write`.  A WriteOnly stream with 2 buffered
bytes accepts 8191 more: the pending total 8193 exceeds capacity, the
internal fflush runs (successfully) and resets `lastAct` to `'0'` — and
the assignment `lastAct = 'w'` happened before that reset, so the call
returns 8191 (accepted, not refused, not failed) with
`last_action = None` as its postcondition. -/
theorem c3_fwrite_sync_clears_last_action :
    (fwrite (mkFile 'w') ⟨[], 0, [], []⟩ [9, 9] 1 2).2.1.lastAct = 'w' ∧
    (fwrite (mkFile 'w') ⟨[], 0, [], []⟩ [9, 9] 1 2).2.1.bufAt = 2 ∧
    (fwrite ((fwrite (mkFile 'w') ⟨[], 0, [], []⟩ [9, 9] 1 2).2.1)
        ((fwrite (mkFile 'w') ⟨[], 0, [], []⟩ [9, 9] 1 2).2.2) [7] 1 8191).1
        = 8191 ∧
    (8191 : Nat) ≠ eofSizeT ∧
    (fwrite ((fwrite (mkFile 'w') ⟨[], 0, [], []⟩ [9, 9] 1 2).2.1)
        ((fwrite (mkFile 'w') ⟨[], 0, [], []⟩ [9, 9] 1 2).2.2) [7] 1 8191).2.1.lastAct
        = '0' := by
  refine ⟨by decide, by decide, by decide, by decide, by decide⟩

/-- Claim C7 (code bug): the first half of the claim holds — a zero-byte
refill sets `at_end` and returns the bytes already delivered (0 here)
with no error — but the second half fails: a negative low-level read does
not set ReadError and does not make `fread` return the EOF sentinel.
The -1 lands in the size_t `bufEnd` as `2^64 - 1`, the unsigned check
`bufEnd < 0` cannot fire, and `fread` copies one stale buffer byte and
returns 1, leaving `err = 0` and `fend = false`. -/
theorem c7_fread_refill_error_undetected :
    ((fread (mkFile 'r') ⟨[], 0, [], []⟩ 1 1).1 = 0 ∧
     (fread (mkFile 'r') ⟨[], 0, [], []⟩ 1 1).2.2.1.fend = true ∧
     (fread (mkFile 'r') ⟨[], 0, [], []⟩ 1 1).2.2.1.err = 0) ∧
    ((fread (mkFile 'r') ⟨[], 0, [false], []⟩ 1 1).1 = 1 ∧
     (1 : Nat) ≠ eofSizeT ∧
     (fread (mkFile 'r') ⟨[], 0, [false], []⟩ 1 1).2.2.1.err = 0 ∧
     (fread (mkFile 'r') ⟨[], 0, [false], []⟩ 1 1).2.2.1.fend = false ∧
     (fread (mkFile 'r') ⟨[], 0, [false], []⟩ 1 1).2.2.1.bufEnd = 2 ^ 64 - 1) := by
  refine ⟨⟨by decide, by decide, by decide⟩,
          by decide, by decide, by decide, by decide, by decide⟩

/-- Claim C8 (confirmed): on a stream opened ReadOnly every `fwrite`
returns the EOF sentinel as converted to its size_t return type
(`(size_t)(-1) = 2^64 - 1`) and leaves the Stream state and the OS state
— file bytes, offset, schedules — completely untouched. -/
theorem c8_fwrite_readonly_refused (s : File) (sys : Sys) (ptr : List Nat)
    (size nmemb : Nat) (h : s.fmode = 'r') :
    fwrite s sys ptr size nmemb = (eofSizeT, s, sys) := by
  unfold fwrite
  simp [h]

/-- Witness for C8 at a concrete ReadOnly stream. -/
theorem c8_fwrite_readonly_witness :
    (mkFile 'r').fmode = 'r' ∧
    fwrite (mkFile 'r') ⟨[1, 2], 0, [], []⟩ [65] 1 1
      = (eofSizeT, mkFile 'r', ⟨[1, 2], 0, [], []⟩) :=
  ⟨rfl, c8_fwrite_readonly_refused (mkFile 'r') ⟨[1, 2], 0, [], []⟩ [65] 1 1 rfl⟩

/-- The digit loop agrees with the specification digits whenever its fuel
covers the starting value. -/
theorem itoaLoopF_eq_spec (fuel : Nat) :
    ∀ i acc, i ≠ 0 → i ≤ fuel → itoaLoopF fuel i acc = decDigitsSpec i ++ acc := by
  induction fuel with
  | zero => intro i acc h1 h2; omega
  | succ fuel ih =>
      intro i acc h1 h2
      cases i with
      | zero => omega
      | succ m =>
          rw [show itoaLoopF (fuel + 1) (m + 1) acc
                = itoaLoopF fuel ((m + 1) / 10) ((48 + (m + 1) % 10) :: acc) from rfl]
          by_cases hlt : m + 1 < 10
          · have hdiv : (m + 1) / 10 = 0 := Nat.div_eq_of_lt hlt
            have hmod : (m + 1) % 10 = m + 1 := Nat.mod_eq_of_lt hlt
            rw [hdiv, hmod]
            have hz : itoaLoopF fuel 0 ((48 + (m + 1)) :: acc)
                = (48 + (m + 1)) :: acc := by cases fuel <;> rfl
            rw [hz, decDigitsSpec, dif_pos hlt]
            rfl
          · have h10 : 10 ≤ m + 1 := by omega
            have hne : (m + 1) / 10 ≠ 0 := by
              have := Nat.div_pos h10 (by decide : 0 < 10)
              omega
            have hlt2 : (m + 1) / 10 < m + 1 :=
              Nat.div_lt_self (by omega) (by decide)
            have hle : (m + 1) / 10 ≤ fuel := by omega
            rw [ih ((m + 1) / 10) ((48 + (m + 1) % 10) :: acc) hne hle]
            conv_rhs => rw [decDigitsSpec]
            rw [dif_neg hlt]
            simp

/-- `itoa` computes the specification's minimal decimal representation. -/
theorem itoa_eq_decimalReprSpec (i : Int) : itoa i = decimalReprSpec i := by
  by_cases h0 : i = 0
  · subst h0
    rw [itoa, if_pos rfl, decimalReprSpec, if_neg (by decide), decDigitsSpec]
    rfl
  · have hn : i.natAbs ≠ 0 := by
      simpa using Int.natAbs_ne_zero.mpr h0
    have : itoaLoop i.natAbs [] = decDigitsSpec i.natAbs := by
      rw [itoaLoop, itoaLoopF_eq_spec i.natAbs i.natAbs [] hn le_rfl, List.append_nil]
    by_cases hneg : i < 0
    · rw [itoa, if_neg h0, decimalReprSpec, if_pos hneg]
      simp [this, hneg]
    · rw [itoa, if_neg h0, decimalReprSpec, if_neg hneg]
      simp [this, hneg]

/-- Claim C9 (confirmed): `fprintf` converts a `%d` argument to its
minimal decimal representation — leading `'-'` for negatives, base 10, no
leading zeros, 0 printed as "0" — by emitting exactly the bytes of
`itoa`, which agrees with the specification-side `decimalReprSpec` for
every argument a C `int` can carry without overflowing in `itoa`'s
negation; and the concrete call `fprintf("%d-%s-%%", -7, "ab")` on a
fresh WriteOnly stream emits exactly the 7 bytes `-7-ab-%` into the
buffer and returns 7. -/
theorem c9_fprintf_decimal :
    (∀ i : Int, -(2 ^ 31) < i → i < 2 ^ 31 → itoa i = decimalReprSpec i) ∧
    (fprintf (mkFile 'w') ⟨[], 0, [], []⟩ [37, 100, 45, 37, 115, 45, 37, 37]
        [.intArg (-7), .strArg [97, 98]]).1 = 7 ∧
    (List.range 7).map (fprintf (mkFile 'w') ⟨[], 0, [], []⟩
        [37, 100, 45, 37, 115, 45, 37, 37]
        [.intArg (-7), .strArg [97, 98]]).2.1.buf = [45, 55, 45, 97, 98, 45, 37] ∧
    (fprintf (mkFile 'w') ⟨[], 0, [], []⟩ [37, 100, 45, 37, 115, 45, 37, 37]
        [.intArg (-7), .strArg [97, 98]]).2.1.bufAt = 7 := by
  refine ⟨fun i _ _ => itoa_eq_decimalReprSpec i, by decide, by decide, by decide⟩

/-- Witness for C9, discharging the range hypotheses at `i = -7`. -/
theorem c9_fprintf_decimal_witness :
    itoa (-7) = decimalReprSpec (-7) ∧
    (fprintf (mkFile 'w') ⟨[], 0, [], []⟩ [37, 100, 45, 37, 115, 45, 37, 37]
        [.intArg (-7), .strArg [97, 98]]).1 = 7 :=
  ⟨c9_fprintf_decimal.1 (-7) (by decide) (by decide), c9_fprintf_decimal.2.1⟩

/-- Claim C5, counterexample: a flush of a write-buffered stream (2 bytes
pending) whose underlying write is short (1 byte) is not detected — the
flush returns 0 and resets the state, where the claim demands a WriteError
failure; and when the underlying write errors, the flush does return the
EOF sentinel but records no error code (`err` stays 0) and performs no
reset (`cursor` stays 2). -/
theorem c5_fflush_short_write_counterexample :
    ((fflush ((fwrite (mkFile 'w') ⟨[], 0, [], [.short 1]⟩ [65, 66] 1 2).2.1)
        ((fwrite (mkFile 'w') ⟨[], 0, [], [.short 1]⟩ [65, 66] 1 2).2.2)).1 = 0 ∧
     (fflush ((fwrite (mkFile 'w') ⟨[], 0, [], [.short 1]⟩ [65, 66] 1 2).2.1)
        ((fwrite (mkFile 'w') ⟨[], 0, [], [.short 1]⟩ [65, 66] 1 2).2.2)).2.1.bufAt = 0 ∧
     (fflush ((fwrite (mkFile 'w') ⟨[], 0, [], [.short 1]⟩ [65, 66] 1 2).2.1)
        ((fwrite (mkFile 'w') ⟨[], 0, [], [.short 1]⟩ [65, 66] 1 2).2.2)).2.1.lastAct = '0') ∧
    ((fflush ((fwrite (mkFile 'w') ⟨[], 0, [], [.err]⟩ [65, 66] 1 2).2.1)
        ((fwrite (mkFile 'w') ⟨[], 0, [], [.err]⟩ [65, 66] 1 2).2.2)).1 = eofInt ∧
     (fflush ((fwrite (mkFile 'w') ⟨[], 0, [], [.err]⟩ [65, 66] 1 2).2.1)
        ((fwrite (mkFile 'w') ⟨[], 0, [], [.err]⟩ [65, 66] 1 2).2.2)).2.1.err = 0 ∧
     (fflush ((fwrite (mkFile 'w') ⟨[], 0, [], [.err]⟩ [65, 66] 1 2).2.1)
        ((fwrite (mkFile 'w') ⟨[], 0, [], [.err]⟩ [65, 66] 1 2).2.2)).2.1.bufAt = 2 ∧
     (fflush ((fwrite (mkFile 'w') ⟨[], 0, [], [.err]⟩ [65, 66] 1 2).2.1)
        ((fwrite (mkFile 'w') ⟨[], 0, [], [.err]⟩ [65, 66] 1 2).2.2)).2.1.lastAct = 'w') := by
  refine ⟨⟨by decide, by decide, by decide⟩, by decide, by decide, by decide, by decide⟩

/-- Claim C5 (amended): when `last_action` is Write, flush issues a single
underlying write of exactly `cursor` bytes of the buffer; it fails
(returning the EOF sentinel, with the state left unchanged and no error
code recorded) exactly when that write returns a negative result — a
short write is not detected — and on any nonnegative write result it
returns 0 and resets `cursor = 0`, `valid_len = 0`, `last_action = None`. -/
theorem c5_fflush_write_amended (s : File) (sys : Sys) (h : s.lastAct = 'w') :
    (List.map s.buf (List.range s.bufAt)).length = s.bufAt ∧
    ((sysWrite sys (List.map s.buf (List.range s.bufAt))).1 < 0 →
      fflush s sys
        = (eofInt, s, (sysWrite sys (List.map s.buf (List.range s.bufAt))).2)) ∧
    (0 ≤ (sysWrite sys (List.map s.buf (List.range s.bufAt))).1 →
      fflush s sys
        = (0, { s with bufAt := 0, bufEnd := 0, lastAct := '0' },
           (sysWrite sys (List.map s.buf (List.range s.bufAt))).2)) := by
  refine ⟨by simp, fun hw => ?_, fun hw => ?_⟩
  · simp only [fflush, if_pos h]
    rw [if_pos hw]
  · simp only [fflush, if_pos h]
    rw [if_neg (not_lt.mpr hw)]

/-- Witness for C5 at a WriteOnly stream with one buffered byte and a
succeeding write. -/
theorem c5_fflush_write_witness :
    (⟨fun _ => 0, 1, 0, 'w', 'w', 0, false⟩ : File).lastAct = 'w' ∧
    0 ≤ (sysWrite ⟨[], 0, [], []⟩
          (List.map (⟨fun _ => 0, 1, 0, 'w', 'w', 0, false⟩ : File).buf
            (List.range (⟨fun _ => 0, 1, 0, 'w', 'w', 0, false⟩ : File).bufAt))).1 ∧
    fflush (⟨fun _ => 0, 1, 0, 'w', 'w', 0, false⟩ : File) ⟨[], 0, [], []⟩
      = (0, { (⟨fun _ => 0, 1, 0, 'w', 'w', 0, false⟩ : File) with
                bufAt := 0, bufEnd := 0, lastAct := '0' },
         (sysWrite ⟨[], 0, [], []⟩
           (List.map (⟨fun _ => 0, 1, 0, 'w', 'w', 0, false⟩ : File).buf
             (List.range (⟨fun _ => 0, 1, 0, 'w', 'w', 0, false⟩ : File).bufAt))).2) := by
  refine ⟨by decide, by decide, ?_⟩
  exact (c5_fflush_write_amended _ _ (by decide)).2.2 (by decide)

/-- Claim C6, counterexample: seeking on a stream whose pending-write sync
fails.  The flush alone provably fails (EOF, from the injected write
error), yet `fseek` with the same starting state still issues the
descriptor seek (the offset moves to 5), reports success (0), clears
nothing and discards nothing (`lastAct` stays 'w'), and records no error
code — where the claim demands that the sync failure short-circuit the
operation and be surfaced first. -/
theorem c6_fseek_sync_failure_counterexample :
    (fflush ((fwrite (mkFile 'w') ⟨[], 0, [], [.err]⟩ [65] 1 1).2.1)
        ((fwrite (mkFile 'w') ⟨[], 0, [], [.err]⟩ [65] 1 1).2.2)).1 = eofInt ∧
    (fseek ((fwrite (mkFile 'w') ⟨[], 0, [], [.err]⟩ [65] 1 1).2.1)
        ((fwrite (mkFile 'w') ⟨[], 0, [], [.err]⟩ [65] 1 1).2.2) 5 .seek_set).1 = 0 ∧
    (fseek ((fwrite (mkFile 'w') ⟨[], 0, [], [.err]⟩ [65] 1 1).2.1)
        ((fwrite (mkFile 'w') ⟨[], 0, [], [.err]⟩ [65] 1 1).2.2) 5 .seek_set).2.2.pos = 5 ∧
    (fseek ((fwrite (mkFile 'w') ⟨[], 0, [], [.err]⟩ [65] 1 1).2.1)
        ((fwrite (mkFile 'w') ⟨[], 0, [], [.err]⟩ [65] 1 1).2.2) 5 .seek_set).2.1.lastAct
        = 'w' ∧
    (fseek ((fwrite (mkFile 'w') ⟨[], 0, [], [.err]⟩ [65] 1 1).2.1)
        ((fwrite (mkFile 'w') ⟨[], 0, [], [.err]⟩ [65] 1 1).2.2) 5 .seek_set).2.1.err
        = 0 := by
  refine ⟨by decide, by decide, by decide, by decide, by decide⟩

/-- Claim C6 (amended): `fseek` calls sync first but ignores its result;
the descriptor seek is then issued unconditionally, and the call's
outcome depends only on that seek: -1 if it fails (with no error code set
by fseek itself), else 0 with `at_end` cleared — the sync's failure is
never surfaced and never prevents the seek. -/
theorem c6_fseek_amended (s : File) (sys : Sys) (offset : Int) (w : Whence) :
    ((sysLseek (fflush s sys).2.2 offset w).1 = -1 →
      fseek s sys offset w
        = (-1, (fflush s sys).2.1, (sysLseek (fflush s sys).2.2 offset w).2)) ∧
    ((sysLseek (fflush s sys).2.2 offset w).1 ≠ -1 →
      fseek s sys offset w
        = (0, { (fflush s sys).2.1 with fend := false },
           (sysLseek (fflush s sys).2.2 offset w).2)) := by
  refine ⟨fun hk => ?_, fun hk => ?_⟩
  · simp only [fseek]
    rw [if_pos hk]
  · simp only [fseek]
    rw [if_neg hk]

/-- Witness for C6 at a fresh ReadOnly stream with a succeeding seek. -/
theorem c6_fseek_witness :
    (sysLseek (fflush (mkFile 'r') ⟨[9], 0, [], []⟩).2.2 1 .seek_set).1 ≠ -1 ∧
    fseek (mkFile 'r') ⟨[9], 0, [], []⟩ 1 .seek_set
      = (0, { (fflush (mkFile 'r') ⟨[9], 0, [], []⟩).2.1 with fend := false },
         (sysLseek (fflush (mkFile 'r') ⟨[9], 0, [], []⟩).2.2 1 .seek_set).2) := by
  refine ⟨by decide, ?_⟩
  exact (c6_fseek_amended (mkFile 'r') ⟨[9], 0, [], []⟩ 1 .seek_set).2 (by decide)

/-- Claim C10, counterexample: a ReadWrite (not write-only) stream with a
pending buffered write whose write-to-read sync fails: `fgets` with
`size = 0` returns NULL, not the destination pointer. -/
theorem c10_fgets_nonpositive_counterexample :
    ((fwrite (mkFile '+') ⟨[], 0, [], [.err]⟩ [65] 1 1).2.1).fmode ≠ 'w' ∧
    (fgets ((fwrite (mkFile '+') ⟨[], 0, [], [.err]⟩ [65] 1 1).2.1)
        ((fwrite (mkFile '+') ⟨[], 0, [], [.err]⟩ [65] 1 1).2.2) 0).1 = .ret none ∧
    FgetsRes.ret (none : Option (List Nat)) ≠ .ret (some []) := by
  refine ⟨by decide, by decide, by decide⟩

/-- Claim C10 (amended): on a stream that is not write-only, `fgets` with
a non-positive `size` stores no characters and returns the destination
pointer, with the write-to-read sync (run when `last_action` is Write) as
its only state effect — provided that sync does not fail; if the sync
fails, `fgets` returns NULL instead. -/
theorem c10_fgets_nonpositive_amended (s : File) (sys : Sys) (size : Int)
    (hm : s.fmode ≠ 'w') (hsz : size ≤ 0) :
    (s.lastAct ≠ 'w' → fgets s sys size = (.ret (some []), s, sys)) ∧
    (s.lastAct = 'w' →
      ((fflush s sys).1 = 0 →
        fgets s sys size = (.ret (some []), (fflush s sys).2.1, (fflush s sys).2.2)) ∧
      ((fflush s sys).1 ≠ 0 →
        fgets s sys size = (.ret none, (fflush s sys).2.1, (fflush s sys).2.2))) := by
  constructor
  · intro hla
    simp only [fgets, if_neg hm, if_neg hla, if_pos hsz]
    simp [fgetsLoop]
  · intro hla
    constructor
    · intro h0
      simp only [fgets, if_neg hm, if_pos hla, if_pos hsz]
      rw [if_neg (by simpa using h0)]
      simp [fgetsLoop]
    · intro h0
      simp only [fgets, if_neg hm, if_pos hla, if_pos hsz]
      rw [if_pos (by simpa using h0)]

/-- Witness for C10 at a fresh ReadOnly stream and `size = 0`. -/
theorem c10_fgets_nonpositive_witness :
    (mkFile 'r').fmode ≠ 'w' ∧ (0 : Int) ≤ 0 ∧
    fgets (mkFile 'r') ⟨[3, 4], 0, [], []⟩ 0
      = (.ret (some []), mkFile 'r', ⟨[3, 4], 0, [], []⟩) := by
  refine ⟨by decide, by decide, ?_⟩
  exact (c10_fgets_nonpositive_amended (mkFile 'r') ⟨[3, 4], 0, [], []⟩ 0
          (by decide) (by decide)).1 (by decide)

/-- A clean buffer state satisfies the bookkeeping invariant in any mode. -/
theorem inv_clean (s : File) : Inv { s with bufAt := 0, bufEnd := 0, lastAct := '0' } :=
  ⟨fun _ => Or.inr ⟨rfl, rfl, rfl⟩, fun _ => ⟨Or.inr rfl, rfl, Nat.zero_le _⟩⟩

theorem sysRead_plans (sys : Sys) (n : Nat) :
    (sysRead sys n).2.2.readPlan = sys.readPlan.tail ∧
    (sysRead sys n).2.2.writePlan = sys.writePlan := by
  unfold sysRead
  dsimp only
  split <;> exact ⟨rfl, rfl⟩

theorem sysRead_sysOK (sys : Sys) (n : Nat) (h : sysOK sys) : sysOK (sysRead sys n).2.2 :=
  ⟨fun b hb => h.1 b (List.mem_of_mem_tail ((sysRead_plans sys n).1 ▸ hb)),
   fun w hw => h.2 w ((sysRead_plans sys n).2 ▸ hw)⟩

/-- Under a benign schedule a read succeeds: it reports the number of
bytes delivered, which is at most the count requested. -/
theorem sysRead_success (sys : Sys) (n : Nat) (h : sysOK sys) :
    (sysRead sys n).1 = ((sysRead sys n).2.1.length : Int) ∧
    (sysRead sys n).2.1.length ≤ n := by
  have hh : sys.readPlan.headD true = true := by
    cases hp : sys.readPlan with
    | nil => rfl
    | cons a l => exact h.1 a (by rw [hp]; exact List.mem_cons_self a l)
  unfold sysRead
  dsimp only
  rw [hh]
  simp [List.length_take]

theorem sysWrite_plans (sys : Sys) (bytes : List Nat) :
    (sysWrite sys bytes).2.readPlan = sys.readPlan ∧
    (sysWrite sys bytes).2.writePlan = sys.writePlan.tail := by
  unfold sysWrite
  dsimp only
  split <;> exact ⟨rfl, rfl⟩

theorem sysWrite_sysOK (sys : Sys) (bytes : List Nat) (h : sysOK sys) :
    sysOK (sysWrite sys bytes).2 :=
  ⟨fun b hb => h.1 b ((sysWrite_plans sys bytes).1 ▸ hb),
   fun w hw => h.2 w (List.mem_of_mem_tail ((sysWrite_plans sys bytes).2 ▸ hw))⟩

/-- Under a benign schedule a write of a nonempty byte sequence either
fails outright (-1) or reports between 1 and `bytes.length` bytes
written. -/
theorem sysWrite_result (sys : Sys) (bytes : List Nat) (h : sysOK sys)
    (hb : bytes ≠ []) :
    (sysWrite sys bytes).1 = -1 ∨
    (1 ≤ (sysWrite sys bytes).1 ∧ (sysWrite sys bytes).1 ≤ (bytes.length : Int)) := by
  have hlen : 0 < bytes.length := List.length_pos.mpr hb
  cases hp : sys.writePlan with
  | nil =>
      right
      simp only [sysWrite, hp, List.headD_nil]
      refine ⟨by omega, le_rfl⟩
  | cons p rest =>
      cases p with
      | ok =>
          right
          simp only [sysWrite, hp, List.headD_cons]
          refine ⟨by omega, le_rfl⟩
      | err =>
          left
          simp only [sysWrite, hp, List.headD_cons]
      | short k =>
          have hk : k ≠ 0 := by
            intro hk0
            exact h.2 (WriteRes.short k) (by rw [hp]; exact List.mem_cons_self ..)
              (by rw [hk0])
          right
          simp only [sysWrite, hp, List.headD_cons, List.length_take]
          refine ⟨by omega, by omega⟩

theorem sysLseek_plans (sys : Sys) (off : Int) (w : Whence) :
    (sysLseek sys off w).2.readPlan = sys.readPlan ∧
    (sysLseek sys off w).2.writePlan = sys.writePlan := by
  unfold sysLseek
  dsimp only
  split <;> exact ⟨rfl, rfl⟩

theorem sysLseek_sysOK (sys : Sys) (off : Int) (w : Whence) (h : sysOK sys) :
    sysOK (sysLseek sys off w).2 :=
  ⟨fun b hb => h.1 b ((sysLseek_plans sys off w).1 ▸ hb),
   fun x hw => h.2 x ((sysLseek_plans sys off w).2 ▸ hw)⟩

/-- fflush either succeeds — returning 0 and the reset state — or fails,
returning the EOF sentinel with the buffer bookkeeping untouched (only
`err` may change, in the rewind branch). -/
theorem fflush_cases (s : File) (sys : Sys) :
    ((fflush s sys).1 = 0 ∧
     (fflush s sys).2.1 = { s with bufAt := 0, bufEnd := 0, lastAct := '0' }) ∨
    ((fflush s sys).1 = eofInt ∧
     (fflush s sys).2.1.buf = s.buf ∧
     (fflush s sys).2.1.bufAt = s.bufAt ∧
     (fflush s sys).2.1.bufEnd = s.bufEnd ∧
     (fflush s sys).2.1.fmode = s.fmode ∧
     (fflush s sys).2.1.lastAct = s.lastAct ∧
     (fflush s sys).2.1.fend = s.fend) := by
  unfold fflush
  dsimp only
  split
  · split
    · exact Or.inr ⟨rfl, rfl, rfl, rfl, rfl, rfl, rfl⟩
    · exact Or.inl ⟨rfl, rfl⟩
  · split
    · split
      · exact Or.inr ⟨rfl, rfl, rfl, rfl, rfl, rfl, rfl⟩
      · exact Or.inl ⟨rfl, rfl⟩
    · exact Or.inl ⟨rfl, rfl⟩

theorem fflush_fmode (s : File) (sys : Sys) : (fflush s sys).2.1.fmode = s.fmode := by
  rcases fflush_cases s sys with ⟨_, h⟩ | ⟨_, _, _, _, h, _, _⟩
  · rw [h]
  · exact h

theorem fflush_inv (s : File) (sys : Sys) (h : Inv s) : Inv (fflush s sys).2.1 := by
  rcases fflush_cases s sys with ⟨_, he⟩ | ⟨_, _, h2, h3, h4, h5, _⟩
  · rw [he]; exact inv_clean s
  · constructor
    · intro hr
      have hrs : ReadShape s := h.1 (h4 ▸ hr)
      unfold ReadShape at hrs ⊢
      rw [h2, h3, h5]
      exact hrs
    · intro hw
      rw [h2, h3, h5]
      exact h.2 (h4 ▸ hw)

theorem fflush_sysOK (s : File) (sys : Sys) (h : sysOK sys) : sysOK (fflush s sys).2.2 := by
  unfold fflush
  dsimp only
  split
  · split
    · exact sysWrite_sysOK _ _ h
    · exact sysWrite_sysOK _ _ h
  · split
    · split
      · exact sysLseek_sysOK _ _ _ h
      · exact sysLseek_sysOK _ _ _ h
    · exact h

theorem intToSizeT_ofNat (n : Nat) (h : n < 2 ^ 64) : intToSizeT (n : Int) = n := by
  unfold intToSizeT
  rw [Int.emod_eq_of_lt (by positivity) (by exact_mod_cast h)]
  simp

/-- The copy loop advances `bufAt` by at most the request size. -/
theorem copyLoop_bufAt_le (buf : Nat → Nat) (bufEnd fuel bufAt : Nat) :
    (copyLoop buf bufEnd fuel bufAt).2.1 ≤ bufAt + fuel := by
  induction fuel generalizing bufAt with
  | zero => simp [copyLoop]
  | succ n ih =>
      rw [copyLoop]
      split
      · dsimp only; omega
      · dsimp only
        have := ih (bufAt + 1)
        omega

/-- Below capacity the copy loop never walks past `bufEnd`. -/
theorem copyLoop_le_bufEnd (buf : Nat → Nat) (bufEnd fuel : Nat)
    (h2 : bufEnd < bufsiz) :
    ∀ bufAt, bufAt ≤ bufEnd → (copyLoop buf bufEnd fuel bufAt).2.1 ≤ bufEnd := by
  induction fuel with
  | zero => intro bufAt h1; simpa [copyLoop] using h1
  | succ n ih =>
      intro bufAt h1
      rw [copyLoop]
      split
      · dsimp only; omega
      · rename_i hcond
        have hne : bufAt ≠ bufEnd := fun he => hcond ⟨he, h2⟩
        dsimp only
        exact ih (bufAt + 1) (by omega)

/-- Bookkeeping established by the fill-and-copy stage of fread: from a
clean buffer, or from an active read window that already covers the
remaining request, the post-state has `ReadShape`, the mode is untouched,
and the schedule stays benign. -/
theorem freadFill_post (s : File) (sys : Sys) (drained : List Nat)
    (size nmemb : Nat) (hs : sysOK sys)
    (hc : (s.lastAct = '0' ∧ s.bufAt = 0 ∧ s.bufEnd = 0) ∨
          (s.lastAct = 'r' ∧
           s.bufAt + (size * nmemb - drained.length) ≤ s.bufEnd ∧
           s.bufEnd ≤ bufsiz)) :
    ReadShape (freadFill s sys drained size nmemb).2.2.1 ∧
    (freadFill s sys drained size nmemb).2.2.1.fmode = s.fmode ∧
    sysOK (freadFill s sys drained size nmemb).2.2.2 := by
  rcases hc with ⟨ha, hA, hE⟩ | ⟨ha, hA, hE⟩
  · -- clean state: the '0' branch
    unfold freadFill
    dsimp only
    rw [if_pos ha]
    by_cases hdir : size * nmemb - drained.length > bufsiz
    · rw [if_pos hdir]
      rw [if_neg (Nat.not_lt_zero _)]
      refine ⟨?_, ?_, sysRead_sysOK _ _ hs⟩
      · split <;> exact Or.inr ⟨ha, hA, hE⟩
      · split <;> rfl
    · rw [if_neg hdir]
      rw [if_neg (Nat.not_lt_zero _)]
      obtain ⟨hr1, hr2⟩ := sysRead_success sys bufsiz hs
      have hlen : intToSizeT (sysRead sys bufsiz).1
          = (sysRead sys bufsiz).2.1.length := by
        rw [hr1, intToSizeT_ofNat _ (by have := hr2; unfold bufsiz at this ⊢; omega)]
      by_cases hz : intToSizeT (sysRead sys bufsiz).1 = 0
      · rw [if_pos hz]
        exact ⟨Or.inr ⟨ha, hA, by rw [hz]⟩, rfl, sysRead_sysOK _ _ hs⟩
      · rw [if_neg hz]
        unfold freadTail
        dsimp only
        refine ⟨Or.inl ⟨rfl, ?_, ?_⟩, rfl, sysRead_sysOK _ _ hs⟩
        · show (copyLoop (refill s.buf (sysRead sys bufsiz).2.1)
              (intToSizeT (sysRead sys bufsiz).1)
              (size * nmemb - drained.length) s.bufAt).2.1
            ≤ intToSizeT (sysRead sys bufsiz).1
          rw [hA]
          rcases Nat.lt_or_ge (intToSizeT (sysRead sys bufsiz).1) bufsiz with hlt | hge
          · exact copyLoop_le_bufEnd _ _ _ hlt 0 (Nat.zero_le _)
          · have h3 := copyLoop_bufAt_le
              (refill s.buf (sysRead sys bufsiz).2.1)
              (intToSizeT (sysRead sys bufsiz).1)
              (size * nmemb - drained.length) 0
            omega
        · show intToSizeT (sysRead sys bufsiz).1 ≤ bufsiz
          rw [hlen]
          exact hr2
  · -- active window already covering the request: straight to the tail
    unfold freadFill
    dsimp only
    rw [if_neg (by rw [ha]; decide)]
    unfold freadTail
    dsimp only
    refine ⟨Or.inl ⟨rfl, ?_, hE⟩, rfl, hs⟩
    show (copyLoop s.buf s.bufEnd (size * nmemb - drained.length) s.bufAt).2.1 ≤ s.bufEnd
    have := copyLoop_bufAt_le s.buf s.bufEnd (size * nmemb - drained.length) s.bufAt
    omega

theorem inv_of_readShape (s : File) (hm : s.fmode = 'r') (h : ReadShape s) : Inv s :=
  ⟨fun _ => h, fun hw => absurd (hm.symm.trans hw) (by decide)⟩

theorem inv_of_writeShape (s : File) (hm : s.fmode = 'w')
    (h : (s.lastAct = 'w' ∨ s.lastAct = '0') ∧ s.bufEnd = 0 ∧ s.bufAt ≤ bufsiz) :
    Inv s :=
  ⟨fun hr => absurd (hm.symm.trans hr) (by decide), fun _ => h⟩

theorem fread_wmode (s : File) (sys : Sys) (size nmemb : Nat) (h : s.fmode = 'w') :
    fread s sys size nmemb = (eofSizeT, [], s, sys) := by
  unfold fread
  rw [if_pos h]

/-- On a ReadOnly stream fread preserves the invariant, the mode, and the
benign schedule. -/
theorem fread_post (s : File) (sys : Sys) (size nmemb : Nat)
    (hm : s.fmode = 'r') (hI : Inv s) (hs : sysOK sys) :
    Inv (fread s sys size nmemb).2.2.1 ∧
    (fread s sys size nmemb).2.2.1.fmode = 'r' ∧
    sysOK (fread s sys size nmemb).2.2.2 := by
  have hrs := hI.1 hm
  unfold fread
  rw [if_neg (show ¬(s.fmode = 'w') from by rw [hm]; decide)]
  dsimp only
  rcases hrs with ⟨ha, h1, h2⟩ | ⟨ha, h1, h2⟩
  · -- active read window
    rw [if_neg (show ¬(s.lastAct = 'w') from by rw [ha]; decide)]
    dsimp only
    rw [if_neg (show ¬((0 : Int) ≠ 0) from by decide)]
    by_cases hov : s.bufAt + size * nmemb > s.bufEnd
    · rw [if_pos (show s.lastAct = 'r' ∧ s.bufAt + size * nmemb > s.bufEnd from
        ⟨ha, hov⟩)]
      rcases fflush_cases { s with bufAt := s.bufEnd } sys with
        ⟨hf0, hfs⟩ | ⟨hf1, hbuf, hba, hbe, hfm, hla, hfe⟩
      · -- drain's rewind succeeded: carry on with the clean state
        rw [if_neg (show ¬((fflush { s with bufAt := s.bufEnd } sys).1 ≠ 0) from
          fun hne => hne hf0)]
        dsimp only
        rw [if_neg (show ¬(false = true) from Bool.false_ne_true)]
        have hpost := freadFill_post (fflush { s with bufAt := s.bufEnd } sys).2.1
          (fflush { s with bufAt := s.bufEnd } sys).2.2
          (List.map s.buf (List.range' s.bufAt (s.bufEnd - s.bufAt))) size nmemb
          (fflush_sysOK _ _ hs) (Or.inl (by rw [hfs]; exact ⟨rfl, rfl, rfl⟩))
        have hfm2 : (freadFill (fflush { s with bufAt := s.bufEnd } sys).2.1
            (fflush { s with bufAt := s.bufEnd } sys).2.2
            (List.map s.buf (List.range' s.bufAt (s.bufEnd - s.bufAt)))
            size nmemb).2.2.1.fmode = 'r' := by
          rw [hpost.2.1, hfs]
          exact hm
        exact ⟨inv_of_readShape _ hfm2 hpost.1, hfm2, hpost.2.2⟩
      · -- drain's rewind failed: the drained window is restored
        rw [if_pos (show (fflush { s with bufAt := s.bufEnd } sys).1 ≠ 0 from by
          rw [hf1]; decide)]
        dsimp only
        rw [if_pos (show (true = true) from rfl)]
        refine ⟨?_, ?_, fflush_sysOK _ _ hs⟩
        · refine inv_of_readShape _ ?_ ?_
          · show (fflush { s with bufAt := s.bufEnd } sys).2.1.fmode = 'r'
            rw [hfm]
            exact hm
          · left
            refine ⟨?_, ?_, ?_⟩
            · show (fflush { s with bufAt := s.bufEnd } sys).2.1.lastAct = 'r'
              rw [hla]
              exact ha
            · show (fflush { s with bufAt := s.bufEnd } sys).2.1.bufAt
                  - (List.map s.buf (List.range' s.bufAt (s.bufEnd - s.bufAt))).length
                ≤ (fflush { s with bufAt := s.bufEnd } sys).2.1.bufEnd
              rw [hba, hbe]
              exact Nat.sub_le _ _
            · show (fflush { s with bufAt := s.bufEnd } sys).2.1.bufEnd ≤ bufsiz
              rw [hbe]
              exact h2
        · show (fflush { s with bufAt := s.bufEnd } sys).2.1.fmode = 'r'
          rw [hfm]
          exact hm
    · rw [if_neg (show ¬(s.lastAct = 'r' ∧ s.bufAt + size * nmemb > s.bufEnd) from
        fun hcon => hov hcon.2)]
      dsimp only
      rw [if_neg (show ¬(false = true) from Bool.false_ne_true)]
      have hpost := freadFill_post s sys [] size nmemb hs
        (Or.inr ⟨ha, by simp; omega, h2⟩)
      exact ⟨inv_of_readShape _ (by rw [hpost.2.1]; exact hm) hpost.1,
             by rw [hpost.2.1]; exact hm, hpost.2.2⟩
  · -- clean buffer
    rw [if_neg (show ¬(s.lastAct = 'w') from by rw [ha]; decide)]
    dsimp only
    rw [if_neg (show ¬((0 : Int) ≠ 0) from by decide)]
    rw [if_neg (show ¬(s.lastAct = 'r' ∧ s.bufAt + size * nmemb > s.bufEnd) from
      fun hcon => absurd (ha.symm.trans hcon.1) (by decide))]
    dsimp only
    rw [if_neg (show ¬(false = true) from Bool.false_ne_true)]
    have hpost := freadFill_post s sys [] size nmemb hs (Or.inl ⟨ha, h1, h2⟩)
    exact ⟨inv_of_readShape _ (by rw [hpost.2.1]; exact hm) hpost.1,
           by rw [hpost.2.1]; exact hm, hpost.2.2⟩

theorem writeCopy_bufAt (buf : Nat → Nat) (bufAt : Nat) (src : List Nat) :
    (writeCopy buf bufAt src).2 = bufAt + src.length := by
  induction src generalizing buf bufAt with
  | nil => simp [writeCopy]
  | cons b rest ih =>
      rw [writeCopy, ih]
      simp [List.length_cons]
      omega

theorem ptrBytes_length (ptr : List Nat) (total : Nat) :
    (ptrBytes ptr total).length = total := by
  simp [ptrBytes]

theorem fwrite_rmode (s : File) (sys : Sys) (ptr : List Nat) (size nmemb : Nat)
    (h : s.fmode = 'r') : fwrite s sys ptr size nmemb = (eofSizeT, s, sys) := by
  unfold fwrite
  rw [if_pos h]

/-- On a WriteOnly stream fwrite preserves the invariant, the mode, and
the benign schedule (for request sizes below the size_t modulus). -/
theorem fwrite_post (s : File) (sys : Sys) (ptr : List Nat) (size nmemb : Nat)
    (hm : s.fmode = 'w') (hI : Inv s) (hs : sysOK sys)
    (hT : size * nmemb < 2 ^ 64) :
    Inv (fwrite s sys ptr size nmemb).2.1 ∧
    (fwrite s sys ptr size nmemb).2.1.fmode = 'w' ∧
    sysOK (fwrite s sys ptr size nmemb).2.2 := by
  obtain ⟨hla, hbe, hba⟩ := hI.2 hm
  unfold fwrite
  rw [if_neg (show ¬(s.fmode = 'r') from by rw [hm]; decide)]
  dsimp only
  rw [if_neg (show ¬(s.lastAct = 'r') from by
    rcases hla with h | h <;> rw [h] <;> decide)]
  dsimp only
  rw [if_neg (show ¬((0 : Int) ≠ 0) from by decide)]
  by_cases hcap : s.bufAt + size * nmemb > bufsiz
  · rw [if_pos (show ({ s with lastAct := 'w' } : File).bufAt + size * nmemb > bufsiz
      from hcap)]
    rcases fflush_cases { s with lastAct := 'w' } sys with
      ⟨hf0, hfs⟩ | ⟨hf1, hbuf, hba2, hbe2, hfm2, hla2, hfe2⟩
    · -- the capacity sync succeeded; state is clean
      rw [if_neg (show ¬((fflush { s with lastAct := 'w' } sys).1 ≠ 0) from
        fun hne => hne hf0)]
      have hsOK2 : sysOK (fflush { s with lastAct := 'w' } sys).2.2 :=
        fflush_sysOK _ _ hs
      by_cases hbig : size * nmemb > bufsiz
      · rw [if_pos hbig]
        have hb : ptrBytes ptr (size * nmemb) ≠ [] :=
          List.ne_nil_of_length_pos (by rw [ptrBytes_length]; omega)
        rcases sysWrite_result _ _ hsOK2 hb with hw | ⟨hw1, hw2⟩
        · have hbw : intToSizeT
              (sysWrite (fflush { s with lastAct := 'w' } sys).2.2
                (ptrBytes ptr (size * nmemb))).1 = 2 ^ 64 - 1 := by
            rw [hw]; decide
          rw [if_neg (show ¬(intToSizeT
              (sysWrite (fflush { s with lastAct := 'w' } sys).2.2
                (ptrBytes ptr (size * nmemb))).1 < 0) from Nat.not_lt_zero _)]
          rw [if_neg (show ¬(intToSizeT
              (sysWrite (fflush { s with lastAct := 'w' } sys).2.2
                (ptrBytes ptr (size * nmemb))).1 = 0) from by rw [hbw]; decide)]
          refine ⟨?_, ?_, sysWrite_sysOK _ _ hsOK2⟩
          · show Inv (fflush { s with lastAct := 'w' } sys).2.1
            rw [hfs]
            exact inv_clean _
          · show (fflush { s with lastAct := 'w' } sys).2.1.fmode = 'w'
            rw [hfs]
            exact hm
        · have hk : (sysWrite (fflush { s with lastAct := 'w' } sys).2.2
              (ptrBytes ptr (size * nmemb))).1
              = ((sysWrite (fflush { s with lastAct := 'w' } sys).2.2
                  (ptrBytes ptr (size * nmemb))).1.toNat : Int) :=
            (Int.toNat_of_nonneg (by omega)).symm
          rw [ptrBytes_length] at hw2
          have hbw : intToSizeT
              (sysWrite (fflush { s with lastAct := 'w' } sys).2.2
                (ptrBytes ptr (size * nmemb))).1
              = (sysWrite (fflush { s with lastAct := 'w' } sys).2.2
                  (ptrBytes ptr (size * nmemb))).1.toNat := by
            rw [hk]
            exact intToSizeT_ofNat _ (by omega)
          rw [if_neg (show ¬(intToSizeT
              (sysWrite (fflush { s with lastAct := 'w' } sys).2.2
                (ptrBytes ptr (size * nmemb))).1 < 0) from Nat.not_lt_zero _)]
          rw [if_neg (show ¬(intToSizeT
              (sysWrite (fflush { s with lastAct := 'w' } sys).2.2
                (ptrBytes ptr (size * nmemb))).1 = 0) from by rw [hbw]; omega)]
          refine ⟨?_, ?_, sysWrite_sysOK _ _ hsOK2⟩
          · show Inv (fflush { s with lastAct := 'w' } sys).2.1
            rw [hfs]
            exact inv_clean _
          · show (fflush { s with lastAct := 'w' } sys).2.1.fmode = 'w'
            rw [hfs]
            exact hm
      · rw [if_neg hbig]
        refine ⟨?_, ?_, fflush_sysOK _ _ hs⟩
        · apply inv_of_writeShape
          · show (fflush { s with lastAct := 'w' } sys).2.1.fmode = 'w'
            rw [hfs]
            exact hm
          · refine ⟨Or.inr ?_, ?_, ?_⟩
            · show (fflush { s with lastAct := 'w' } sys).2.1.lastAct = '0'
              rw [hfs]
            · show (fflush { s with lastAct := 'w' } sys).2.1.bufEnd = 0
              rw [hfs]
            · show (writeCopy (fflush { s with lastAct := 'w' } sys).2.1.buf
                  (fflush { s with lastAct := 'w' } sys).2.1.bufAt
                  (ptrBytes ptr (size * nmemb))).2 ≤ bufsiz
              rw [writeCopy_bufAt, ptrBytes_length]
              have hz : (fflush { s with lastAct := 'w' } sys).2.1.bufAt = 0 := by
                rw [hfs]
              omega
        · show (fflush { s with lastAct := 'w' } sys).2.1.fmode = 'w'
          rw [hfs]
          exact hm
    · -- the capacity sync failed: state untouched
      rw [if_pos (show (fflush { s with lastAct := 'w' } sys).1 ≠ 0 from by
        rw [hf1]; decide)]
      refine ⟨?_, ?_, fflush_sysOK _ _ hs⟩
      · apply inv_of_writeShape
        · show (fflush { s with lastAct := 'w' } sys).2.1.fmode = 'w'
          rw [hfm2]
          exact hm
        · refine ⟨Or.inl ?_, ?_, ?_⟩
          · show (fflush { s with lastAct := 'w' } sys).2.1.lastAct = 'w'
            rw [hla2]
          · show (fflush { s with lastAct := 'w' } sys).2.1.bufEnd = 0
            rw [hbe2]
            exact hbe
          · show (fflush { s with lastAct := 'w' } sys).2.1.bufAt ≤ bufsiz
            rw [hba2]
            exact hba
      · show (fflush { s with lastAct := 'w' } sys).2.1.fmode = 'w'
        rw [hfm2]
        exact hm
  · rw [if_neg (show ¬(({ s with lastAct := 'w' } : File).bufAt + size * nmemb
      > bufsiz) from hcap)]
    refine ⟨?_, ?_, hs⟩
    · apply inv_of_writeShape
      · show ({ s with lastAct := 'w' } : File).fmode = 'w'
        exact hm
      · refine ⟨Or.inl rfl, ?_, ?_⟩
        · show ({ s with lastAct := 'w' } : File).bufEnd = 0
          exact hbe
        · show (writeCopy ({ s with lastAct := 'w' } : File).buf
              ({ s with lastAct := 'w' } : File).bufAt
              (ptrBytes ptr (size * nmemb))).2 ≤ bufsiz
          rw [writeCopy_bufAt, ptrBytes_length]
          have hz : ({ s with lastAct := 'w' } : File).bufAt = s.bufAt := rfl
          rw [hz]
          omega
    · show ({ s with lastAct := 'w' } : File).fmode = 'w'
      exact hm

theorem fgetc_post (s : File) (sys : Sys)
    (hm : s.fmode = 'r' ∨ s.fmode = 'w') (hI : Inv s) (hs : sysOK sys) :
    Inv (fgetc s sys).2.1 ∧ (fgetc s sys).2.1.fmode = s.fmode ∧
    sysOK (fgetc s sys).2.2 := by
  rcases hm with hm | hm
  · obtain ⟨hInv, hfm, hsys⟩ := fread_post s sys 1 1 hm hI hs
    unfold fgetc
    dsimp only
    split
    · exact ⟨hInv, by rw [hfm, hm], hsys⟩
    · exact ⟨hInv, by rw [hfm, hm], hsys⟩
  · have hr := fread_wmode s sys 1 1 hm
    unfold fgetc
    rw [hr]
    dsimp only
    split
    · exact ⟨hI, rfl, hs⟩
    · exact ⟨hI, rfl, hs⟩

theorem fputc_post (s : File) (sys : Sys) (c : Int)
    (hm : s.fmode = 'r' ∨ s.fmode = 'w') (hI : Inv s) (hs : sysOK sys) :
    Inv (fputc s sys c).2.1 ∧ (fputc s sys c).2.1.fmode = s.fmode ∧
    sysOK (fputc s sys c).2.2 := by
  rcases hm with hm | hm
  · have hr := fwrite_rmode s sys [intToByte c] 1 1 hm
    unfold fputc
    rw [hr]
    dsimp only
    split
    · exact ⟨hI, rfl, hs⟩
    · exact ⟨hI, rfl, hs⟩
  · obtain ⟨hInv, hfm, hsys⟩ := fwrite_post s sys [intToByte c] 1 1 hm hI hs (by decide)
    unfold fputc
    dsimp only
    split
    · exact ⟨hInv, by rw [hfm, hm], hsys⟩
    · exact ⟨hInv, by rw [hfm, hm], hsys⟩

theorem fgetsLoop_post (fo : Nat) (fuel : Nat) :
    ∀ s sys overflow acc, (s.fmode = 'r' ∨ s.fmode = 'w') → Inv s → sysOK sys →
      Inv (fgetsLoop fo fuel s sys overflow acc).2.1 ∧
      sysOK (fgetsLoop fo fuel s sys overflow acc).2.2 := by
  induction fuel with
  | zero => intro s sys o acc hm hI hs; exact ⟨hI, hs⟩
  | succ n ih =>
      intro s sys o acc hm hI hs
      obtain ⟨hIg, hfm, hsg⟩ := fgetc_post s sys hm hI hs
      have hm2 : (fgetc s sys).2.1.fmode = 'r' ∨ (fgetc s sys).2.1.fmode = 'w' := by
        rw [hfm]; exact hm
      rw [fgetsLoop]
      dsimp only
      repeat' split
      all_goals first
        | exact ⟨inv_clean _, sysLseek_sysOK _ _ _ hsg⟩
        | exact ⟨hIg, hsg⟩
        | exact ih _ _ _ _ hm2 hIg hsg

theorem fgets_post (s : File) (sys : Sys) (size : Int)
    (hm : s.fmode = 'r' ∨ s.fmode = 'w') (hI : Inv s) (hs : sysOK sys) :
    Inv (fgets s sys size).2.1 ∧ sysOK (fgets s sys size).2.2 := by
  unfold fgets
  rcases hm with hm | hm
  · rw [if_neg (show ¬(s.fmode = 'w') from by rw [hm]; decide)]
    dsimp only
    by_cases hw : s.lastAct = 'w'
    · rw [if_pos hw]
      rcases fflush_cases s sys with ⟨hf0, _⟩ | ⟨hf1, _⟩
      · rw [if_neg (show ¬((fflush s sys).1 ≠ 0) from fun hne => hne hf0)]
        exact fgetsLoop_post _ _ _ _ _ _
          (Or.inl (by rw [fflush_fmode]; exact hm))
          (fflush_inv s sys hI) (fflush_sysOK s sys hs)
      · rw [if_pos (show (fflush s sys).1 ≠ 0 from by rw [hf1]; decide)]
        exact ⟨fflush_inv s sys hI, fflush_sysOK s sys hs⟩
    · rw [if_neg hw]
      dsimp only
      rw [if_neg (show ¬((0 : Int) ≠ 0) from by decide)]
      exact fgetsLoop_post _ _ _ _ _ _ (Or.inl hm) hI hs
  · rw [if_pos hm]
    exact ⟨hI, hs⟩

theorem fputs_post (s : File) (sys : Sys) (str : List Nat)
    (hm : s.fmode = 'r' ∨ s.fmode = 'w') (hI : Inv s) (hs : sysOK sys)
    (hT : str.length < 2 ^ 64) :
    Inv (fputs s sys str).2.1 ∧ sysOK (fputs s sys str).2.2 := by
  unfold fputs
  rcases hm with hm | hm
  · rw [if_pos hm]
    exact ⟨hI, hs⟩
  · rw [if_neg (show ¬(s.fmode = 'r') from by rw [hm]; decide)]
    dsimp only
    obtain ⟨hInv, _, hsys⟩ :=
      fwrite_post s sys str 1 str.length hm hI hs (by simpa using hT)
    exact ⟨hInv, hsys⟩

theorem fseek_post (s : File) (sys : Sys) (off : Int) (w : Whence)
    (hI : Inv s) (hs : sysOK sys) :
    Inv (fseek s sys off w).2.1 ∧ sysOK (fseek s sys off w).2.2 := by
  unfold fseek
  dsimp only
  have hI2 := fflush_inv s sys hI
  have hs2 := fflush_sysOK s sys hs
  split
  · exact ⟨hI2, sysLseek_sysOK _ _ _ hs2⟩
  · exact ⟨hI2, sysLseek_sysOK _ _ _ hs2⟩

theorem inv_mkFile (m : Char) : Inv (mkFile m) :=
  ⟨fun _ => Or.inr ⟨rfl, rfl, rfl⟩, fun _ => ⟨Or.inr rfl, rfl, Nat.zero_le _⟩⟩

theorem fopen_inv (mode : List Char) (f : File) (h : fopen mode = some f) :
    Inv f := by
  unfold fopen at h
  split at h <;> first
    | (injection h with h2; rw [← h2]; exact inv_mkFile _)
    | exact Option.noConfusion h

/-- Claim C4, counterexample: the invariant `0 ≤ cursor ≤ valid_len ≤
capacity` does not hold after every operation.  (i) One buffered `fwrite`
on a fresh WriteOnly stream leaves `cursor = 1 > valid_len = 0`, because
the write path never updates `bufEnd`.  (ii) On a ReadWrite stream the
failure spreads to read mode: from a stream holding 8191 buffered write
bytes, an `fwrite` of 2 bytes triggers the capacity sync (whose
zero-byte-short write result goes undetected) and leaves
`last_action = None` with `cursor = 2`; a following 1-byte `fread` then
refills (`valid_len = 1`) but keeps reading from `cursor = 2`, ending in
read mode with `cursor = 3 > valid_len = 1`. -/
theorem c4_invariant_counterexample :
    ((fwrite (mkFile 'w') ⟨[], 0, [], []⟩ [65] 1 1).2.1.bufAt = 1 ∧
     (fwrite (mkFile 'w') ⟨[], 0, [], []⟩ [65] 1 1).2.1.bufEnd = 0) ∧
    ((fread ((fwrite (⟨fun _ => 0, 8191, 0, '+', 'w', 0, false⟩ : File)
          ⟨[9], 0, [], [.short 0]⟩ [5, 5] 1 2).2.1)
        ((fwrite (⟨fun _ => 0, 8191, 0, '+', 'w', 0, false⟩ : File)
          ⟨[9], 0, [], [.short 0]⟩ [5, 5] 1 2).2.2) 1 1).2.2.1.lastAct = 'r' ∧
     (fread ((fwrite (⟨fun _ => 0, 8191, 0, '+', 'w', 0, false⟩ : File)
          ⟨[9], 0, [], [.short 0]⟩ [5, 5] 1 2).2.1)
        ((fwrite (⟨fun _ => 0, 8191, 0, '+', 'w', 0, false⟩ : File)
          ⟨[9], 0, [], [.short 0]⟩ [5, 5] 1 2).2.2) 1 1).2.2.1.bufAt = 3 ∧
     (fread ((fwrite (⟨fun _ => 0, 8191, 0, '+', 'w', 0, false⟩ : File)
          ⟨[9], 0, [], [.short 0]⟩ [5, 5] 1 2).2.1)
        ((fwrite (⟨fun _ => 0, 8191, 0, '+', 'w', 0, false⟩ : File)
          ⟨[9], 0, [], [.short 0]⟩ [5, 5] 1 2).2.2) 1 1).2.2.1.bufEnd = 1) := by
  refine ⟨⟨by decide, by decide⟩, by decide, by decide, by decide⟩

/-- Claim C4 (amended): on streams opened ReadOnly or WriteOnly, with
every low-level read succeeding and no zero-byte short write injected,
the bookkeeping invariant is preserved by every operation — where in read
mode it takes the claimed form `0 ≤ cursor ≤ valid_len ≤ capacity`, while
in write mode `valid_len` stays 0 and only `0 ≤ cursor ≤ capacity` holds
(`cursor ≤ valid_len` fails as soon as a byte is buffered); freshly
opened streams satisfy the invariant, so it holds after every operation
on such streams.  On ReadWrite streams even the per-mode forms are
violated (see the counterexample). -/
theorem c4_invariant_amended (s : File) (sys : Sys)
    (hm : s.fmode = 'r' ∨ s.fmode = 'w') (hI : Inv s) (hs : sysOK sys) :
    (∀ mode f, fopen mode = some f → Inv f) ∧
    (∀ size nmemb, Inv (fread s sys size nmemb).2.2.1) ∧
    (∀ ptr size nmemb, size * nmemb < 2 ^ 64 →
      Inv (fwrite s sys ptr size nmemb).2.1) ∧
    Inv (fgetc s sys).2.1 ∧
    (∀ c, Inv (fputc s sys c).2.1) ∧
    (∀ size, Inv (fgets s sys size).2.1) ∧
    (∀ str, str.length < 2 ^ 64 → Inv (fputs s sys str).2.1) ∧
    Inv (fflush s sys).2.1 ∧
    (∀ off w, Inv (fseek s sys off w).2.1) := by
  refine ⟨fopen_inv, ?_, ?_, (fgetc_post s sys hm hI hs).1, ?_, ?_, ?_,
          fflush_inv s sys hI, ?_⟩
  · intro size nmemb
    rcases hm with hm | hm
    · exact (fread_post s sys size nmemb hm hI hs).1
    · rw [fread_wmode s sys size nmemb hm]
      exact hI
  · intro ptr size nmemb hT
    rcases hm with hm | hm
    · rw [fwrite_rmode s sys ptr size nmemb hm]
      exact hI
    · exact (fwrite_post s sys ptr size nmemb hm hI hs hT).1
  · intro c
    exact (fputc_post s sys c hm hI hs).1
  · intro size
    exact (fgets_post s sys size hm hI hs).1
  · intro str hT
    exact (fputs_post s sys str hm hI hs hT).1
  · intro off w
    exact (fseek_post s sys off w hI hs).1

/-- Witness for C4 at a fresh ReadOnly stream over a two-byte file. -/
theorem c4_invariant_witness :
    ((mkFile 'r').fmode = 'r' ∨ (mkFile 'r').fmode = 'w') ∧
    Inv (mkFile 'r') ∧ sysOK (⟨[7, 8], 0, [], []⟩ : Sys) ∧
    Inv (fgetc (mkFile 'r') ⟨[7, 8], 0, [], []⟩).2.1 ∧
    Inv (fread (mkFile 'r') ⟨[7, 8], 0, [], []⟩ 1 2).2.2.1 ∧
    (1 * 2 < 2 ^ 64 ∧ Inv (fwrite (mkFile 'r') ⟨[7, 8], 0, [], []⟩ [3] 1 2).2.1) :=
  ⟨Or.inl rfl, inv_mkFile 'r',
   ⟨fun b hb => absurd hb (List.not_mem_nil b),
    fun w hw => absurd hw (List.not_mem_nil w)⟩,
   (c4_invariant_amended (mkFile 'r') ⟨[7, 8], 0, [], []⟩ (Or.inl rfl)
     (inv_mkFile 'r')
     ⟨fun b hb => absurd hb (List.not_mem_nil b),
      fun w hw => absurd hw (List.not_mem_nil w)⟩).2.2.2.1,
   ((c4_invariant_amended (mkFile 'r') ⟨[7, 8], 0, [], []⟩ (Or.inl rfl)
     (inv_mkFile 'r')
     ⟨fun b hb => absurd hb (List.not_mem_nil b),
      fun w hw => absurd hw (List.not_mem_nil w)⟩).2.1 1 2),
   by decide,
   ((c4_invariant_amended (mkFile 'r') ⟨[7, 8], 0, [], []⟩ (Or.inl rfl)
     (inv_mkFile 'r')
     ⟨fun b hb => absurd hb (List.not_mem_nil b),
      fun w hw => absurd hw (List.not_mem_nil w)⟩).2.2.1 [3] 1 2 (by decide))⟩

end BufferedIO
